import Mathlib

/-!
Shallow embedding of the `bws` secret provider (package `secret/bws` of
`toolops-integrations`): the reference parser, the TTL-bounded resolution
cache, and the configuration defaults.

Modelling conventions:
* Go `time.Time` / `time.Duration` are modelled as `Int` (nanoseconds);
  the zero `time.Time{}` is `0` and `t.Before u` is `t < u`.
* The injected clock `p.now` is a field `nowTime : Int` of the provider
  state: within one operation the Go code reads the clock at most once
  per critical step, so a fixed value per call is faithful; tests advance
  the clock by changing the field between calls.
* A Go `context.Context` is a flag `ctxCancelled : Bool`; `ctx.Err()` for
  a cancelled context is the string `"context canceled"`.
* Go maps (`map[string]string` etc.) are association lists with distinct
  keys, kept distinct by `mapInsert` (delete-then-append, which preserves
  Go's lookup and `len` semantics; iteration order is never observed by
  the embedded code).
* The backend SDK client is a structure of pure response functions
  (`Backend`); each embedded operation additionally returns the list of
  backend calls it issued, in order, so call-count claims are statable.
* Errors are the literal Go error message strings (`fmt.Errorf` with `%w`
  appends the wrapped message after `": "`); `%q` on a name is modelled
  by `goQuote`, which is exact precisely on names satisfying
  `quoteEscapeFree` (printable ASCII without quote or backslash, the
  characters `strconv.Quote` emits verbatim); theorems about `%q`-built
  messages carry that hypothesis.
-/

namespace ToolopsBws

/-- `sdk.ProjectResponse`: the fields consumed by the provider. -/
structure ProjectResponse where
  id : String
  name : String
deriving Repr, DecidableEq

/-- `sdk.SecretIdentifierResponse`: the fields consumed by the provider. -/
structure SecretIdentifierResponse where
  id : String
  key : String
deriving Repr, DecidableEq

/-- `sdk.SecretResponse`: the fields consumed by the provider
(`ProjectID *string` becomes `Option String`). -/
structure SecretResponse where
  id : String
  key : String
  projectID : Option String
  value : String
deriving Repr, DecidableEq

/-- The backend client (`bwsClient` narrowed to the calls the provider
makes): `Projects().List`, `Secrets().List`, `Secrets().GetByIDS`,
`Secrets().Get`, each of which may fail with an error message. -/
structure Backend where
  listProjects : String → Except String (List ProjectResponse)
  listSecretIdentifiers : String → Except String (List SecretIdentifierResponse)
  getByIDs : List String → Except String (List SecretResponse)
  getSecret : String → Except String SecretResponse

/-- One backend call, recorded in the order issued. -/
inductive BackendCall where
  | listProjects (orgID : String)
  | listSecretIdentifiers (orgID : String)
  | getByIDs (ids : List String)
  | getSecret (id : String)
deriving Repr, DecidableEq

instance instDecEqExcept {ε α : Type} [DecidableEq ε] [DecidableEq α] :
    DecidableEq (Except ε α) := fun x y =>
  match x, y with
  | .error u, .error v =>
    if h : u = v then .isTrue (congrArg Except.error h)
    else .isFalse (fun hc => h (Except.error.inj hc))
  | .ok u, .ok v =>
    if h : u = v then .isTrue (congrArg Except.ok h)
    else .isFalse (fun hc => h (Except.ok.inj hc))
  | .error _, .ok _ => .isFalse (fun hc => Except.noConfusion hc)
  | .ok _, .error _ => .isFalse (fun hc => Except.noConfusion hc)

/-- Go `unicode.IsSpace` restricted to the whitespace runes that occur
in references (ASCII and Latin-1); the higher Unicode space runes are
not modelled. -/
def goIsSpace (c : Char) : Bool :=
  c = ' ' ∨ c = '\t' ∨ c = '\n' ∨ c = '\x0b' ∨ c = '\x0c' ∨ c = '\r'
    ∨ c = '\u0085' ∨ c = ' '

/-- Go `strings.TrimSpace`: drop leading and trailing whitespace.
(Defined by structural recursion over the character list so that it
evaluates inside the kernel.) -/
def trimSpace (s : String) : String :=
  String.mk (((s.data.dropWhile goIsSpace).reverse.dropWhile goIsSpace).reverse)

/-- Split a character list around every occurrence of `c`
(`strings.Split` with a one-character separator, at character level). -/
def splitOnChar (c : Char) : List Char → List (List Char)
  | [] => [[]]
  | x :: xs =>
    match splitOnChar c xs with
    | [] => [[]]
    | h :: t => if x = c then [] :: h :: t else (x :: h) :: t

/-- Go `strings.Split s (String.singleton c)`. -/
def goSplit (s : String) (c : Char) : List String :=
  (splitOnChar c s.data).map String.mk

/-- Go map insert: replaces any existing binding for the key
(`m[k] = v`); keys stay distinct, so `List.length` is Go's `len`. -/
def mapInsert {β : Type} (m : List (String × β)) (k : String) (v : β) :
    List (String × β) :=
  m.filter (fun e => e.1 ≠ k) ++ [(k, v)]

/-- Go map lookup `m[k]` (the `v, ok` form). -/
def mapFind {β : Type} (m : List (String × β)) (k : String) : Option β :=
  List.lookup k m

/-- The provider together with its cache snapshot (`provider` and
`bwsCache` flattened; the lock is not represented: the embedding is
sequential, so every operation is atomic). -/
structure ProviderState where
  orgID : String
  nowTime : Int
  cacheTTL : Int
  expiresAt : Int
  projectByName : List (String × String)
  secretByProj : List (String × List (String × String))
deriving Repr, DecidableEq

/-- `parseProjectKeyRef` (provider.go): splits on `/`, requires exactly
four segments with literals `project` and `key` at positions 0 and 2 and
non-empty names at 1 and 3; `none` is Go's `ok == false`. -/
def parseProjectKeyRef (ref : String) : Option (String × String) :=
  match goSplit ref '/' with
  | [s0, s1, s2, s3] =>
    if s0 ≠ "project" ∨ s2 ≠ "key" then none
    else if s1 = "" ∨ s3 = "" then none
    else some (s1, s3)
  | _ => none

/-- The names Go's `%q` (`strconv.Quote`) emits verbatim between the
quotes: every character is printable ASCII and neither the quote nor the
backslash. On any other name `%q` inserts escape sequences, so the
quoted form differs from the name itself. -/
def quoteEscapeFree (s : String) : Bool :=
  s.data.all fun c => 32 ≤ c.toNat ∧ c.toNat ≤ 126 ∧ c ≠ '"' ∧ c ≠ '\\'

/-- Go's `%q` applied to a name satisfying `quoteEscapeFree`: for those
names `strconv.Quote` is exactly quote–name–quote. (For names with
escape-needing characters the real `%q` output differs; theorems about
`%q`-built messages therefore carry a `quoteEscapeFree` hypothesis.) -/
def goQuote (s : String) : String := "\"" ++ s ++ "\""

/-- `buildProjectByName`: the loop in refreshCache building
`projectByName` (name → ID, last write wins). -/
def buildProjectByName (ps : List ProjectResponse) : List (String × String) :=
  ps.foldl (fun m pr => mapInsert m pr.name pr.id) []

/-- One iteration of the `secretByProj` loop in refreshCache: records
with `ProjectID == nil` are skipped, the rest are inserted keyed by
project ID then key name. -/
def insertSecretRecord (m : List (String × List (String × String)))
    (s : SecretResponse) : List (String × List (String × String)) :=
  match s.projectID with
  | none => m
  | some pid => mapInsert m pid (mapInsert ((mapFind m pid).getD []) s.key s.id)

/-- `buildSecretByProj`: the loop in refreshCache building
`secretByProj` (project ID → key name → secret ID). -/
def buildSecretByProj (secs : List SecretResponse) :
    List (String × List (String × String)) :=
  secs.foldl insertSecretRecord []

/-- `refreshCache` (provider.go): cancellation check, the three backend
calls (batch fetch skipped when no identifiers), then the atomic swap of
both maps and `expiresAt = now() + ttl`. Returns the Go error, the state
after the call, and the backend calls issued. -/
def refreshCache (b : Backend) (ctxCancelled : Bool) (p : ProviderState) :
    Except String Unit × ProviderState × List BackendCall :=
  if ctxCancelled then (.error "context canceled", p, [])
  else
    match b.listProjects p.orgID with
    | .error e => (.error ("bws list projects: " ++ e), p, [.listProjects p.orgID])
    | .ok projects =>
      match b.listSecretIdentifiers p.orgID with
      | .error e =>
          (.error ("bws list secrets: " ++ e), p,
            [.listProjects p.orgID, .listSecretIdentifiers p.orgID])
      | .ok secretIDs =>
        let ids := secretIDs.map (fun s => s.id)
        match (if ids.length > 0 then
                 match b.getByIDs ids with
                 | .error e => (Except.error e, [BackendCall.getByIDs ids])
                 | .ok secs => (Except.ok secs, [BackendCall.getByIDs ids])
               else (Except.ok [], [])) with
        | (.error e, extra) =>
            (.error ("bws get secrets: " ++ e), p,
              [.listProjects p.orgID, .listSecretIdentifiers p.orgID] ++ extra)
        | (.ok secs, extra) =>
            (.ok (),
              { p with
                  projectByName := buildProjectByName projects,
                  secretByProj := buildSecretByProj secs,
                  expiresAt := p.nowTime + p.cacheTTL },
              [.listProjects p.orgID, .listSecretIdentifiers p.orgID] ++ extra)

/-- `ensureCache` (provider.go): always refresh when `ttl <= 0`;
otherwise skip the refresh exactly when `now()` is strictly before
`expiresAt` and `projectByName` is non-empty. -/
def ensureCache (b : Backend) (ctxCancelled : Bool) (p : ProviderState) :
    Except String Unit × ProviderState × List BackendCall :=
  if p.cacheTTL ≤ 0 then refreshCache b ctxCancelled p
  else if p.nowTime < p.expiresAt ∧ p.projectByName.length > 0 then (.ok (), p, [])
  else refreshCache b ctxCancelled p

/-- `resolveByProjectKey` (provider.go): org-ID guard, cache freshness,
the two map lookups, then the single-secret fetch (which, as in the
source, has no cancellation check of its own). -/
def resolveByProjectKey (b : Backend) (ctxCancelled : Bool) (p : ProviderState)
    (projectName keyName : String) :
    Except String String × ProviderState × List BackendCall :=
  if trimSpace p.orgID = "" then
    (.error "bws organization id is required for project/key lookup", p, [])
  else
    match ensureCache b ctxCancelled p with
    | (.error e, p', calls) => (.error e, p', calls)
    | (.ok _, p', calls) =>
      match mapFind p'.projectByName projectName with
      | none => (.error ("bws project " ++ goQuote projectName ++ " not found"), p', calls)
      | some projectID =>
        match mapFind ((mapFind p'.secretByProj projectID).getD []) keyName with
        | none =>
            (.error ("bws secret " ++ goQuote keyName ++ " not found in project "
                ++ goQuote projectName), p', calls)
        | some secretID =>
          match b.getSecret secretID with
          | .error e =>
              (.error ("bws get secret: " ++ e), p', calls ++ [.getSecret secretID])
          | .ok s => (.ok s.value, p', calls ++ [.getSecret secretID])

/-- `Resolve` (provider.go): trim, empty-reference guard, parse; the
project/key path delegates, the direct path checks cancellation and
fetches the secret by the trimmed reference. -/
def Resolve (b : Backend) (ctxCancelled : Bool) (p : ProviderState) (ref : String) :
    Except String String × ProviderState × List BackendCall :=
  let trimmed := trimSpace ref
  if trimmed = "" then (.error "bws ref is empty", p, [])
  else
    match parseProjectKeyRef trimmed with
    | some pk => resolveByProjectKey b ctxCancelled p pk.1 pk.2
    | none =>
      if ctxCancelled then (.error "context canceled", p, [])
      else
        match b.getSecret trimmed with
        | .error e => (.error ("bws get secret: " ++ e), p, [.getSecret trimmed])
        | .ok s => (.ok s.value, p, [.getSecret trimmed])

/-- The cache-clearing body of `Close` (provider.go): both maps reset to
empty, `expiresAt` zeroed. (`sync.Once` idempotence is trivial here:
clearing twice equals clearing once.) -/
def closeCache (p : ProviderState) : ProviderState :=
  { p with projectByName := [], secretByProj := [], expiresAt := 0 }

/-- `Config` (config.go), durations in nanoseconds. -/
structure Config where
  accessToken : String
  orgID : String
  apiURL : String
  identityURL : String
  stateFile : String
  cacheTTL : Int
deriving Repr, DecidableEq

/-- Go `10 * time.Minute` in nanoseconds. -/
def tenMinutes : Int := 600000000000

/-- `Config.withEnvDefaults` (config.go); `env` is `os.Getenv`. -/
def withEnvDefaults (env : String → String) (c : Config) : Config :=
  let c1 := if trimSpace c.accessToken = ""
            then { c with accessToken := trimSpace (env "BWS_ACCESS_TOKEN") } else c
  let c2 := if trimSpace c1.orgID = ""
            then { c1 with orgID := trimSpace (env "BWS_ORG_ID") } else c1
  if c2.cacheTTL = 0 then { c2 with cacheTTL := tenMinutes } else c2

/-- `Config.validateForInit` (config.go). -/
def validateForInit (c : Config) : Except String Unit :=
  if trimSpace c.accessToken = "" then .error "bws access token is required"
  else if c.cacheTTL < 0 then .error "bws cache_ttl cannot be negative"
  else .ok ()

/-- The body of `New` (provider.go) after the env defaulting:
validation, client init and login (modelled as boolean oracles, with
their Go error prefixes), the org-ID fallback to `BWS_ORG_ID`, and the
initial empty cache. -/
def newWithConfig (env : String → String) (sdkInitOk loginOk : Bool) (t0 : Int)
    (cfg1 : Config) : Except String ProviderState :=
  match validateForInit cfg1 with
  | .error e => .error e
  | .ok _ =>
    if !sdkInitOk then .error "init bws client: sdk error"
    else if !loginOk then .error "bws login failed: login error"
    else
      let o1 := trimSpace cfg1.orgID
      let orgID := if o1 = "" then trimSpace (env "BWS_ORG_ID") else o1
      .ok { orgID := orgID, nowTime := t0, cacheTTL := cfg1.cacheTTL,
            expiresAt := 0, projectByName := [], secretByProj := [] }

/-- `New` (provider.go): `cfg = cfg.withEnvDefaults()` followed by the
rest of the constructor. -/
def New (env : String → String) (sdkInitOk loginOk : Bool) (t0 : Int)
    (cfg : Config) : Except String ProviderState :=
  newWithConfig env sdkInitOk loginOk t0 (withEnvDefaults env cfg)

/-- Substring containment (for claims about error-message contents):
`sub` occurs in `s` iff `sub`'s character list is an infix of `s`'s,
matching Go `strings.Contains`. -/
def containsStr (s sub : String) : Bool :=
  decide (sub.data <:+: s.data)

/-- The parse result as the spec's `Reference` sum type. -/
inductive Reference where
  | direct (id : String)
  | projectKey (project key : String)
deriving Repr, DecidableEq

/-- The classification the code implements: `parseProjectKeyRef` first,
direct reference as the fallback (Resolve, steps 2–3). -/
def classify (trimmed : String) : Reference :=
  match parseProjectKeyRef trimmed with
  | some pk => .projectKey pk.1 pk.2
  | none => .direct trimmed

/-- Modelled from the spec's words (§4.1), for the refinement claim C1:
four segments, literals `project`/`key`, non-empty names, else direct. -/
def classifySpec (s : String) : Reference :=
  match goSplit s '/' with
  | [s0, s1, s2, s3] =>
    if s0 = "project" ∧ s2 = "key" ∧ s1 ≠ "" ∧ s3 ≠ "" then
      .projectKey s1 s3
    else .direct s
  | _ => .direct s

/-- A consistent demo backend: one project `dotenv` (ID `p1`), one
secret `TOKEN` (ID `s1`); every single-secret fetch returns `"abc"`. -/
def bDemo : Backend :=
  { listProjects := fun _ => .ok [{ id := "p1", name := "dotenv" }],
    listSecretIdentifiers := fun _ => .ok [{ id := "s1", key := "TOKEN" }],
    getByIDs := fun _ =>
      .ok [{ id := "s1", key := "TOKEN", projectID := some "p1", value := "ignored" }],
    getSecret := fun i => .ok { id := i, key := "", projectID := none, value := "abc" } }

/-- A backend whose project listing fails. -/
def bErr : Backend :=
  { listProjects := fun _ => .error "boom",
    listSecretIdentifiers := fun _ => .ok [],
    getByIDs := fun _ => .ok [],
    getSecret := fun i => .ok { id := i, key := "", projectID := none, value := "" } }

/-- A backend whose batch response attributes its one secret to a
project ID (`ghost`) that the project listing of the same refresh never
returned. -/
def bGhost : Backend :=
  { listProjects := fun _ => .ok [{ id := "p1", name := "proj" }],
    listSecretIdentifiers := fun _ => .ok [{ id := "s1", key := "k" }],
    getByIDs := fun _ =>
      .ok [{ id := "s1", key := "k", projectID := some "ghost", value := "v" }],
    getSecret := fun i => .ok { id := i, key := "", projectID := none, value := "v" } }

/-- A freshly constructed provider: empty cache, 10-minute TTL. -/
def pDemo : ProviderState :=
  { orgID := "org", nowTime := 0, cacheTTL := tenMinutes, expiresAt := 0,
    projectByName := [], secretByProj := [] }

/-- `pDemo` without a configured organization. -/
def pNoOrg : ProviderState :=
  { pDemo with orgID := "" }

/-- A provider with a warm, still-fresh cache for `dotenv`/`TOKEN`
(clock at 5 minutes, snapshot expiring at 10). -/
def pCached : ProviderState :=
  { orgID := "org", nowTime := 300000000000, cacheTTL := tenMinutes,
    expiresAt := 600000000000,
    projectByName := [("dotenv", "p1")],
    secretByProj := [("p1", [("TOKEN", "s1")])] }

/-- The provider state a successful refresh produces from the project
list `projects` and the batch result `secs`. -/
def refreshedState (p : ProviderState) (projects : List ProjectResponse)
    (secs : List SecretResponse) : ProviderState :=
  { p with projectByName := buildProjectByName projects,
           secretByProj := buildSecretByProj secs,
           expiresAt := p.nowTime + p.cacheTTL }

/-- The state `pDemo` reaches after one refresh against `bDemo`. -/
def pAfterRefresh : ProviderState :=
  { orgID := "org", nowTime := 0, cacheTTL := tenMinutes, expiresAt := tenMinutes,
    projectByName := [("dotenv", "p1")],
    secretByProj := [("p1", [("TOKEN", "s1")])] }

/-- An empty environment for configuration fixtures. -/
def env0 : String → String := fun _ => ""

/-- A config with an access token and the zero (unset) TTL. -/
def cfgZero : Config :=
  { accessToken := "tok", orgID := "", apiURL := "", identityURL := "",
    stateFile := "", cacheTTL := 0 }

/-- The provider state `New` builds from `cfgZero` under `env0`. -/
def pNewDemo : ProviderState :=
  { orgID := "", nowTime := 0, cacheTTL := tenMinutes, expiresAt := 0,
    projectByName := [], secretByProj := [] }

/-- `cacheTTL` after env defaulting: zero becomes ten minutes, anything
else is kept; the access-token and org-ID defaulting never touch it. -/
theorem withEnvDefaults_cacheTTL (env : String → String) (cfg : Config) :
    (withEnvDefaults env cfg).cacheTTL
      = if cfg.cacheTTL = 0 then tenMinutes else cfg.cacheTTL := by
  unfold withEnvDefaults
  simp [apply_ite Config.cacheTTL]

/-- A validated config (post-defaulting) has a strictly positive TTL. -/
theorem validateForInit_ok_ttl_pos (env : String → String) (cfg : Config)
    (h : validateForInit (withEnvDefaults env cfg) = .ok ()) :
    0 < (withEnvDefaults env cfg).cacheTTL := by
  unfold validateForInit at h
  split_ifs at h with h1 h2
  have hne : (withEnvDefaults env cfg).cacheTTL ≠ 0 := by
    rw [withEnvDefaults_cacheTTL]
    split_ifs with h0
    · decide
    · exact h0
  omega

/-- Inversion for a successful construction: the (defaulted) config
validated, the provider keeps its TTL, and the cache starts empty. -/
theorem newWithConfig_ok_inv (env : String → String) (sdkInitOk loginOk : Bool)
    (t0 : Int) (cfg1 : Config) (p : ProviderState)
    (hp : newWithConfig env sdkInitOk loginOk t0 cfg1 = .ok p) :
    validateForInit cfg1 = .ok () ∧ p.cacheTTL = cfg1.cacheTTL
      ∧ p.projectByName = [] ∧ p.secretByProj = [] := by
  unfold newWithConfig at hp
  cases hval : validateForInit cfg1 with
  | error e => rw [hval] at hp; exact Except.noConfusion hp
  | ok u =>
    cases u
    rw [hval] at hp
    cases sdkInitOk with
    | false => simp at hp
    | true =>
      cases loginOk with
      | false => simp at hp
      | true =>
        simp at hp
        exact ⟨rfl, by rw [← hp], by rw [← hp], by rw [← hp]⟩

/-- C1: `parseProjectKeyRef` is total, and together with the direct-ref
fallback classifies every string exactly as the spec's 4-segment rule:
`project/<p>/key/<k>` with non-empty names yields the project/key pair,
every other string is a direct reference to the whole input. -/
theorem C1_parse_classifies_as_spec (s : String) : classify s = classifySpec s := by
  unfold classify classifySpec parseProjectKeyRef
  rcases hs : goSplit s '/' with _ | ⟨a, _ | ⟨b, _ | ⟨c, _ | ⟨d, _ | ⟨e, rest⟩⟩⟩⟩⟩
  · simp
  · simp
  · simp
  · simp
  · by_cases h2 : a = "project" <;> by_cases h3 : c = "key" <;>
      by_cases h4 : b = "" <;> by_cases h5 : d = "" <;>
      simp [h2, h3, h4, h5]
  · simp

/-- C9: a reference that is empty after trimming always fails with the
empty-reference error, without parsing, with no backend call, and with
the snapshot unchanged, whatever the cache state. -/
theorem C9_empty_ref_rejected (b : Backend) (ctxCancelled : Bool)
    (p : ProviderState) (ref : String) (h : trimSpace ref = "") :
    Resolve b ctxCancelled p ref = (.error "bws ref is empty", p, []) := by
  simp [Resolve, h]

/-- C9 witness: a whitespace-only reference at a warm cache. -/
theorem C9_empty_ref_rejected_witness :
    trimSpace "  " = ""
      ∧ Resolve bDemo false pCached "  " = (.error "bws ref is empty", pCached, []) :=
  ⟨by decide, C9_empty_ref_rejected bDemo false pCached "  " (by decide)⟩

/-- C5: with no configured organization (blank after trimming), a
project/key resolve fails immediately with the organization-required
error, issues zero backend calls, and leaves the snapshot unchanged. -/
theorem C5_missing_org_fails_fast (b : Backend) (ctxCancelled : Bool)
    (p : ProviderState) (ref proj key : String)
    (horg : trimSpace p.orgID = "")
    (hparse : parseProjectKeyRef (trimSpace ref) = some (proj, key)) :
    Resolve b ctxCancelled p ref
      = (.error "bws organization id is required for project/key lookup", p, []) := by
  have htr : trimSpace ref ≠ "" := by
    intro h
    rw [h] at hparse
    have hnone : parseProjectKeyRef "" = none := by decide
    rw [hnone] at hparse
    exact Option.noConfusion hparse
  simp [Resolve, htr, hparse, resolveByProjectKey, horg]

/-- C5 witness: the reference `project/dotenv/key/EXAMPLE` on a provider
with a blank organization ID. -/
theorem C5_missing_org_fails_fast_witness :
    trimSpace pNoOrg.orgID = ""
      ∧ parseProjectKeyRef (trimSpace "project/dotenv/key/EXAMPLE")
          = some ("dotenv", "EXAMPLE")
      ∧ Resolve bDemo false pNoOrg "project/dotenv/key/EXAMPLE"
          = (.error "bws organization id is required for project/key lookup", pNoOrg, []) :=
  ⟨by decide, by decide,
    C5_missing_org_fails_fast bDemo false pNoOrg "project/dotenv/key/EXAMPLE"
      "dotenv" "EXAMPLE" (by decide) (by decide)⟩

/-- C3: `ensureCache` refreshes exactly when the snapshot is not fresh:
with non-positive TTL it always takes the refresh path; with positive
TTL it skips the refresh iff the clock is strictly before `expiresAt`
and the project map is non-empty, so a never-populated cache always
refreshes even with `expiresAt` unset. -/
theorem C3_ensureCache_freshness_gate (b : Backend) (ctxCancelled : Bool)
    (p : ProviderState) :
    (p.cacheTTL ≤ 0 → ensureCache b ctxCancelled p = refreshCache b ctxCancelled p)
    ∧ (0 < p.cacheTTL →
        ((p.nowTime < p.expiresAt ∧ p.projectByName ≠ []) →
          ensureCache b ctxCancelled p = (.ok (), p, []))
        ∧ (¬ (p.nowTime < p.expiresAt ∧ p.projectByName ≠ []) →
          ensureCache b ctxCancelled p = refreshCache b ctxCancelled p)) := by
  refine ⟨fun h => by simp [ensureCache, h], fun h => ⟨fun hf => ?_, fun hs => ?_⟩⟩
  · have hc : p.nowTime < p.expiresAt ∧ p.projectByName.length > 0 :=
      ⟨hf.1, List.length_pos.mpr hf.2⟩
    simp [ensureCache, not_le.mpr h, hc]
  · have hc : ¬ (p.nowTime < p.expiresAt ∧ p.projectByName.length > 0) := by
      intro hc
      exact hs ⟨hc.1, List.length_pos.mp hc.2⟩
    simp [ensureCache, not_le.mpr h, hc]

/-- C3 witness: a fresh warm cache is served without refreshing. -/
theorem C3_ensureCache_freshness_gate_witness :
    0 < pCached.cacheTTL
      ∧ ensureCache bDemo false pCached = (.ok (), pCached, []) :=
  ⟨by decide,
    ((C3_ensureCache_freshness_gate bDemo false pCached).2 (by decide)).1
      (by decide)⟩

/-- C10: a provider built by `New` never runs in always-refresh mode: a
zero `CacheTTL` is defaulted to ten minutes before validation, a
negative `CacheTTL` makes `New` fail, and every provider `New` returns
has a strictly positive TTL. -/
theorem C10_new_ttl_positive (env : String → String) (sdkInitOk loginOk : Bool)
    (t0 : Int) (cfg : Config) :
    (∀ p, New env sdkInitOk loginOk t0 cfg = .ok p → 0 < p.cacheTTL)
    ∧ (cfg.cacheTTL = 0 → (withEnvDefaults env cfg).cacheTTL = tenMinutes)
    ∧ (cfg.cacheTTL < 0 → ∀ p, New env sdkInitOk loginOk t0 cfg ≠ .ok p) := by
  refine ⟨?_, ?_, ?_⟩
  · intro p hp
    unfold New at hp
    obtain ⟨hval, httl, -, -⟩ := newWithConfig_ok_inv env sdkInitOk loginOk t0 _ p hp
    have hq := validateForInit_ok_ttl_pos env cfg hval
    omega
  · intro h0
    rw [withEnvDefaults_cacheTTL, if_pos h0]
  · intro hneg p hp
    unfold New at hp
    obtain ⟨hval, -, -, -⟩ := newWithConfig_ok_inv env sdkInitOk loginOk t0 _ p hp
    have hq := validateForInit_ok_ttl_pos env cfg hval
    rw [withEnvDefaults_cacheTTL] at hq
    rw [if_neg (by omega)] at hq
    omega

/-- C10 witness: `New` on a config with `CacheTTL = 0` yields a provider
whose TTL is the ten-minute default, hence positive. -/
theorem C10_new_ttl_positive_witness :
    New env0 true true 0 cfgZero = .ok pNewDemo ∧ 0 < pNewDemo.cacheTTL :=
  ⟨by decide, (C10_new_ttl_positive env0 true true 0 cfgZero).1 pNewDemo (by decide)⟩

/-- Exhaustive description of `refreshCache`: it either fails leaving
the state untouched, or succeeds having listed projects and secret
identifiers, batch-fetched when identifiers exist, and swapped in the
rebuilt snapshot. -/
theorem refreshCache_spec (b : Backend) (ctxCancelled : Bool) (p : ProviderState) :
    (∃ e calls, refreshCache b ctxCancelled p = (.error e, p, calls))
    ∨ (∃ projects secretIDs secs,
        b.listProjects p.orgID = .ok projects
        ∧ b.listSecretIdentifiers p.orgID = .ok secretIDs
        ∧ ((secretIDs = [] ∧ secs = [])
            ∨ (secretIDs ≠ []
                ∧ b.getByIDs (secretIDs.map (fun s => s.id)) = .ok secs))
        ∧ refreshCache b ctxCancelled p
            = (.ok (), refreshedState p projects secs,
               [.listProjects p.orgID, .listSecretIdentifiers p.orgID]
                 ++ if secretIDs = [] then []
                    else [.getByIDs (secretIDs.map (fun s => s.id))])) := by
  cases ctxCancelled with
  | true => exact Or.inl ⟨"context canceled", [], by simp [refreshCache]⟩
  | false =>
    cases hlp : b.listProjects p.orgID with
    | error e =>
      exact Or.inl ⟨"bws list projects: " ++ e, [.listProjects p.orgID],
        by simp [refreshCache, hlp]⟩
    | ok projects =>
      cases hls : b.listSecretIdentifiers p.orgID with
      | error e =>
        exact Or.inl ⟨"bws list secrets: " ++ e,
          [.listProjects p.orgID, .listSecretIdentifiers p.orgID],
          by simp [refreshCache, hlp, hls]⟩
      | ok secretIDs =>
        cases secretIDs with
        | nil =>
          exact Or.inr ⟨projects, [], [], rfl, rfl, Or.inl ⟨rfl, rfl⟩,
            by simp [refreshCache, hlp, hls, refreshedState]⟩
        | cons s0 ss =>
          cases hgb : b.getByIDs (s0.id :: ss.map (fun s => s.id)) with
          | error e =>
            exact Or.inl ⟨"bws get secrets: " ++ e,
              [.listProjects p.orgID, .listSecretIdentifiers p.orgID,
               .getByIDs ((s0 :: ss).map (fun s => s.id))],
              by simp [refreshCache, hlp, hls, hgb]⟩
          | ok secs =>
            exact Or.inr ⟨projects, s0 :: ss, secs, rfl, rfl,
              Or.inr ⟨List.cons_ne_nil s0 ss, hgb⟩,
              by simp [refreshCache, hlp, hls, hgb, refreshedState]⟩

/-- C4: `refreshCache` is all-or-nothing: any failed backend call makes
it return an error with the snapshot (both maps and `expiresAt`) exactly
as before, and on success both maps and `expiresAt` are replaced
together from the same set of successful responses. -/
theorem C4_refresh_all_or_nothing (b : Backend) (ctxCancelled : Bool)
    (p : ProviderState) :
    (∀ e p' calls, refreshCache b ctxCancelled p = (.error e, p', calls) → p' = p)
    ∧ (∀ p' calls, refreshCache b ctxCancelled p = (.ok (), p', calls) →
        ∃ projects secretIDs secs,
          b.listProjects p.orgID = .ok projects
          ∧ b.listSecretIdentifiers p.orgID = .ok secretIDs
          ∧ ((secretIDs = [] ∧ secs = [])
              ∨ (secretIDs ≠ []
                  ∧ b.getByIDs (secretIDs.map (fun s => s.id)) = .ok secs))
          ∧ p' = refreshedState p projects secs) := by
  rcases refreshCache_spec b ctxCancelled p with
    ⟨e0, calls0, heq⟩ | ⟨projects, secretIDs, secs, hlp, hls, hbatch, heq⟩
  · constructor
    · intro e p' calls h'
      rw [heq] at h'
      simp only [Prod.mk.injEq] at h'
      exact h'.2.1.symm
    · intro p' calls h'
      rw [heq] at h'
      simp at h'
  · constructor
    · intro e p' calls h'
      rw [heq] at h'
      simp at h'
    · intro p' calls h'
      rw [heq] at h'
      simp only [Prod.mk.injEq] at h'
      exact ⟨projects, secretIDs, secs, hlp, hls, hbatch, h'.2.1.symm⟩

/-- C4 witness: a successful refresh of `pDemo` against `bDemo` swaps in
the rebuilt snapshot; the responses it was built from exist. -/
theorem C4_refresh_all_or_nothing_witness :
    refreshCache bDemo false pDemo
        = (.ok (), pAfterRefresh,
           [.listProjects "org", .listSecretIdentifiers "org", .getByIDs ["s1"]])
      ∧ ∃ projects secretIDs secs,
          bDemo.listProjects pDemo.orgID = .ok projects
          ∧ bDemo.listSecretIdentifiers pDemo.orgID = .ok secretIDs
          ∧ ((secretIDs = [] ∧ secs = [])
              ∨ (secretIDs ≠ []
                  ∧ bDemo.getByIDs (secretIDs.map (fun s => s.id)) = .ok secs))
          ∧ pAfterRefresh = refreshedState pDemo projects secs :=
  ⟨by decide,
    (C4_refresh_all_or_nothing bDemo false pDemo).2 pAfterRefresh
      [.listProjects "org", .listSecretIdentifiers "org", .getByIDs ["s1"]]
      (by decide)⟩

/-- C7 counterexample: with the context already cancelled but the cache
fresh, a project/key resolve still issues the single-secret backend
fetch and succeeds, instead of aborting with the cancellation error —
the cache-resolved fetch has no cancellation check. -/
theorem C7_counterexample :
    (Resolve bDemo true pCached "project/dotenv/key/TOKEN").2.2
        = [BackendCall.getSecret "s1"]
      ∧ (Resolve bDemo true pCached "project/dotenv/key/TOKEN").1
          ≠ Except.error "context canceled" := by decide

/-- C7 amended: the direct single-secret fetch and the refresh's backend
calls (project list, secret-identifier list, batch fetch) do check the
caller's cancellation first: an already-cancelled context aborts them
with the cancellation error and no backend call; only the fetch of a
cache-resolved secret ID lacks such a check. -/
theorem C7_amended_cancellation_checked (b : Backend) (p : ProviderState)
    (ref : String) (hne : trimSpace ref ≠ "")
    (hdirect : parseProjectKeyRef (trimSpace ref) = none) :
    Resolve b true p ref = (.error "context canceled", p, [])
      ∧ refreshCache b true p = (.error "context canceled", p, []) := by
  constructor
  · simp [Resolve, hne, hdirect]
  · simp [refreshCache]

/-- C7 amended witness: the direct reference `secret-id` under a
cancelled context. -/
theorem C7_amended_cancellation_checked_witness :
    trimSpace "secret-id" ≠ ""
      ∧ parseProjectKeyRef (trimSpace "secret-id") = none
      ∧ Resolve bDemo true pDemo "secret-id" = (.error "context canceled", pDemo, [])
      ∧ refreshCache bDemo true pDemo = (.error "context canceled", pDemo, []) :=
  ⟨by decide, by decide,
    (C7_amended_cancellation_checked bDemo pDemo "secret-id" (by decide) (by decide)).1,
    (C7_amended_cancellation_checked bDemo pDemo "secret-id" (by decide) (by decide)).2⟩

/-- C8 counterexample: a fresh cache without project `alpha` makes the
resolve of `alpha`/`beta` fail with a message that carries the project
name only — the key name `beta` does not occur in the error message. -/
theorem C8_counterexample :
    (resolveByProjectKey bDemo false pCached "alpha" "beta").1
        = Except.error "bws project \x22alpha\x22 not found"
      ∧ containsStr "bws project \x22alpha\x22 not found" "beta" = false := by decide

/-- C8 amended: when the cache is fresh but the project name is absent,
the resolve fails with the project-not-found error whose message
contains the project name, provided the name has no characters `%q`
escapes (for escaped names the message carries the escaped form
instead); the key name appears only in the warning log, not in the
error message. -/
theorem C8_amended_message_has_project (b : Backend) (ctxCancelled : Bool)
    (p : ProviderState) (proj key : String)
    (_hquote : quoteEscapeFree proj = true)
    (horg : trimSpace p.orgID ≠ "")
    (httl : 0 < p.cacheTTL)
    (hfresh : p.nowTime < p.expiresAt)
    (hne : p.projectByName ≠ [])
    (hmiss : mapFind p.projectByName proj = none) :
    resolveByProjectKey b ctxCancelled p proj key
        = (.error ("bws project " ++ goQuote proj ++ " not found"), p, [])
      ∧ containsStr ("bws project " ++ goQuote proj ++ " not found") proj = true := by
  have hlen : p.projectByName.length > 0 := List.length_pos.mpr hne
  have hnle : ¬ p.cacheTTL ≤ 0 := not_le.mpr httl
  constructor
  · simp [resolveByProjectKey, ensureCache, horg, hnle, hfresh, hlen, hmiss]
  · simp only [containsStr, decide_eq_true_eq]
    refine ⟨("bws project " ++ "\x22").data, ("\x22" ++ " not found").data, ?_⟩
    simp [goQuote, String.data_append]

/-- C8 amended witness: project `alpha`, key `beta` on the warm cache
that only knows `dotenv`. -/
theorem C8_amended_message_has_project_witness :
    resolveByProjectKey bDemo false pCached "alpha" "beta"
        = (.error ("bws project " ++ goQuote "alpha" ++ " not found"), pCached, [])
      ∧ containsStr ("bws project " ++ goQuote "alpha" ++ " not found") "alpha" = true :=
  C8_amended_message_has_project bDemo false pCached "alpha" "beta"
    (by decide) (by decide) (by decide) (by decide) (by decide) (by decide)

/-- A key of `mapInsert m k v` is a key of `m` or is `k`. -/
theorem mem_keys_mapInsert {β : Type} (m : List (String × β)) (k : String)
    (v : β) (x : String)
    (hx : x ∈ (mapInsert m k v).map (fun e => e.1)) :
    x ∈ m.map (fun e => e.1) ∨ x = k := by
  simp only [mapInsert, List.map_append, List.mem_append] at hx
  rcases hx with hx | hx
  · left
    obtain ⟨e, he, rfl⟩ := List.mem_map.mp hx
    exact List.mem_map.mpr ⟨e, List.mem_of_mem_filter he, rfl⟩
  · right
    simpa using hx

/-- Every key that the `secretByProj` fold adds comes from some record's
project ID. -/
theorem keys_foldl_insertSecretRecord (secs : List SecretResponse) :
    ∀ (m : List (String × List (String × String))) (x : String),
      x ∈ (secs.foldl insertSecretRecord m).map (fun e => e.1) →
      x ∈ m.map (fun e => e.1) ∨ ∃ s ∈ secs, s.projectID = some x := by
  induction secs with
  | nil => intro m x hx; exact Or.inl hx
  | cons s rest ih =>
    intro m x hx
    rw [List.foldl_cons] at hx
    rcases ih (insertSecretRecord m s) x hx with h | h
    · cases hpid : s.projectID with
      | none =>
        rw [insertSecretRecord, hpid] at h
        exact Or.inl h
      | some pid =>
        rw [insertSecretRecord, hpid] at h
        rcases mem_keys_mapInsert _ _ _ _ h with h' | h'
        · exact Or.inl h'
        · exact Or.inr ⟨s, List.mem_cons_self s rest, h' ▸ hpid⟩
    · obtain ⟨t, ht, hp⟩ := h
      exact Or.inr ⟨t, List.mem_cons_of_mem s ht, hp⟩

/-- Every key of `buildSecretByProj secs` is the project ID of some
record in `secs`. -/
theorem keys_buildSecretByProj (secs : List SecretResponse) (x : String)
    (hx : x ∈ (buildSecretByProj secs).map (fun e => e.1)) :
    ∃ s ∈ secs, s.projectID = some x := by
  rcases keys_foldl_insertSecretRecord secs [] x hx with h | h
  · simp at h
  · exact h

/-- C6 counterexample: a refresh whose batch response attributes its
secret to project ID `ghost` succeeds and stores `ghost` as a
`secretByProj` key, although `ghost` did not exist in the project-list
response of the same refresh that built `projectByName`. -/
theorem C6_counterexample :
    (refreshCache bGhost false pDemo).1 = .ok ()
      ∧ (refreshCache bGhost false pDemo).2.1.secretByProj
          = [("ghost", [("k", "s1")])]
      ∧ (refreshCache bGhost false pDemo).2.1.projectByName = [("proj", "p1")]
      ∧ bGhost.listProjects pDemo.orgID = .ok [{ id := "p1", name := "proj" }]
      ∧ ¬ ("ghost" ∈ ([{ id := "p1", name := "proj" }] : List ProjectResponse).map
            (fun pr => pr.id)) := by decide

/-- C6 amended: the invariant holds unconditionally for construction and
shutdown (empty maps), and holds for refresh provided the backend's
batch response is project-consistent: if every batch record's project ID
appears in the project-list response of the same refresh, then after a
successful refresh every `secretByProj` key is a project ID of that
response — the one `projectByName` was built from — and both maps are
replaced in the same step (records without a project ID are skipped). -/
theorem C6_amended_snapshot_consistency (b : Backend) (ctxCancelled : Bool)
    (p : ProviderState) (projects : List ProjectResponse)
    (hlp : b.listProjects p.orgID = .ok projects)
    (hconsist : ∀ ids secs, b.getByIDs ids = .ok secs →
        ∀ s ∈ secs, ∀ pid, s.projectID = some pid →
          pid ∈ projects.map (fun pr => pr.id)) :
    (∀ st calls, refreshCache b ctxCancelled p = (.ok (), st, calls) →
        st.projectByName = buildProjectByName projects
        ∧ ∀ x ∈ st.secretByProj.map (fun e => e.1),
            x ∈ projects.map (fun pr => pr.id))
      ∧ ((closeCache p).projectByName = [] ∧ (closeCache p).secretByProj = []
          ∧ (closeCache p).expiresAt = 0)
      ∧ (∀ env sdkInitOk loginOk t0 cfg q,
          New env sdkInitOk loginOk t0 cfg = .ok q →
          q.projectByName = [] ∧ q.secretByProj = []) := by
  refine ⟨?_, ⟨rfl, rfl, rfl⟩, ?_⟩
  · intro st calls h
    rcases refreshCache_spec b ctxCancelled p with
      ⟨e, calls0, heq⟩ | ⟨projects', secretIDs, secs, hlp', hls', hbatch, heq⟩
    · rw [heq] at h
      simp at h
    · rw [heq] at h
      simp only [Prod.mk.injEq] at h
      obtain ⟨-, hst, -⟩ := h
      rw [hlp'] at hlp
      obtain rfl := Except.ok.inj hlp
      constructor
      · rw [← hst]
        simp [refreshedState]
      · intro x hx
        rw [← hst] at hx
        simp only [refreshedState] at hx
        obtain ⟨s, hsmem, hpid⟩ := keys_buildSecretByProj secs x hx
        rcases hbatch with ⟨-, rfl⟩ | ⟨-, hgb⟩
        · simp at hsmem
        · exact hconsist _ secs hgb s hsmem x hpid
  · intro env sdkInitOk loginOk t0 cfg q hq
    unfold New at hq
    exact (newWithConfig_ok_inv env sdkInitOk loginOk t0 _ q hq).2.2

/-- C6 amended witness: after refreshing `pDemo` against the consistent
backend `bDemo`, every `secretByProj` key is a project ID from the same
project-list response. -/
theorem C6_amended_snapshot_consistency_witness :
    pAfterRefresh.projectByName
        = buildProjectByName [{ id := "p1", name := "dotenv" }]
      ∧ ∀ x ∈ pAfterRefresh.secretByProj.map (fun e => e.1),
          x ∈ ([{ id := "p1", name := "dotenv" }] : List ProjectResponse).map
                (fun pr => pr.id) :=
  (C6_amended_snapshot_consistency bDemo false pDemo
      [{ id := "p1", name := "dotenv" }]
      (by decide)
      (by
        intro ids secs h s hs pid hpid
        obtain rfl := Except.ok.inj h
        simp only [List.mem_singleton] at hs
        subst hs
        simp only [SecretResponse.projectID, Option.some.injEq] at hpid
        subst hpid
        decide)).1
    pAfterRefresh
    [.listProjects "org", .listSecretIdentifiers "org", .getByIDs ["s1"]]
    (by decide)

/-- C2: starting from an empty cache with positive TTL and a configured
organization, a first successful project/key resolve issues exactly the
project list, the secret-identifier list, the batch fetch and one
single-secret fetch, in that order; a second resolve of the same
reference before `expiresAt` issues only the single-secret fetch with
the cached secret ID. -/
theorem C2_first_resolve_lists_once_then_cached
    (b : Backend) (p : ProviderState) (ref proj key : String)
    (projects : List ProjectResponse) (s0 : SecretIdentifierResponse)
    (ss : List SecretIdentifierResponse) (secs : List SecretResponse)
    (pid sid : String) (sv : SecretResponse) (t2 : Int)
    (horg : trimSpace p.orgID ≠ "")
    (httl : 0 < p.cacheTTL)
    (hempty : p.projectByName = [])
    (hparse : parseProjectKeyRef (trimSpace ref) = some (proj, key))
    (hlp : b.listProjects p.orgID = .ok projects)
    (hls : b.listSecretIdentifiers p.orgID = .ok (s0 :: ss))
    (hgb : b.getByIDs (s0.id :: ss.map (fun s => s.id)) = .ok secs)
    (hpid : mapFind (buildProjectByName projects) proj = some pid)
    (hsid : mapFind ((mapFind (buildSecretByProj secs) pid).getD []) key = some sid)
    (hget : b.getSecret sid = .ok sv)
    (hfresh : t2 < p.nowTime + p.cacheTTL) :
    Resolve b false p ref
        = (.ok sv.value, refreshedState p projects secs,
           [.listProjects p.orgID, .listSecretIdentifiers p.orgID,
            .getByIDs (s0.id :: ss.map (fun s => s.id)), .getSecret sid])
      ∧ Resolve b false { refreshedState p projects secs with nowTime := t2 } ref
          = (.ok sv.value, { refreshedState p projects secs with nowTime := t2 },
             [.getSecret sid]) := by
  have htr : trimSpace ref ≠ "" := by
    intro h0
    rw [h0] at hparse
    have hnone : parseProjectKeyRef "" = none := by decide
    rw [hnone] at hparse
    exact Option.noConfusion hparse
  have hnle : ¬ p.cacheTTL ≤ 0 := not_le.mpr httl
  constructor
  · simp [Resolve, htr, hparse, resolveByProjectKey, ensureCache, refreshCache,
          horg, hnle, hempty, hlp, hls, hgb, hpid, hsid, hget, refreshedState]
  · have hnonempty : buildProjectByName projects ≠ [] := by
      intro h0
      rw [h0] at hpid
      simp [mapFind] at hpid
    have hlen : (buildProjectByName projects).length > 0 :=
      List.length_pos.mpr hnonempty
    simp [Resolve, htr, hparse, resolveByProjectKey, ensureCache, refreshedState,
          horg, hnle, hfresh, hlen, hpid, hsid, hget]

/-- C2 witness: `project/dotenv/key/TOKEN` against `bDemo`, second
resolve five minutes later. -/
theorem C2_first_resolve_lists_once_then_cached_witness :
    Resolve bDemo false pDemo "project/dotenv/key/TOKEN"
        = (.ok "abc", pAfterRefresh,
           [.listProjects "org", .listSecretIdentifiers "org",
            .getByIDs ["s1"], .getSecret "s1"])
      ∧ Resolve bDemo false { pAfterRefresh with nowTime := 300000000000 }
            "project/dotenv/key/TOKEN"
          = (.ok "abc", { pAfterRefresh with nowTime := 300000000000 },
             [.getSecret "s1"]) := by
  exact C2_first_resolve_lists_once_then_cached bDemo pDemo
    "project/dotenv/key/TOKEN" "dotenv" "TOKEN"
    [{ id := "p1", name := "dotenv" }] { id := "s1", key := "TOKEN" } []
    [{ id := "s1", key := "TOKEN", projectID := some "p1", value := "ignored" }]
    "p1" "s1" { id := "s1", key := "", projectID := none, value := "abc" }
    300000000000
    (by decide) (by decide) (by decide) (by decide) (by decide) (by decide)
    (by decide) (by decide) (by decide) (by decide) (by decide)

end ToolopsBws
